import Mathlib

/-!
Verification of `react-simple-router` (src/index.js): a hash-based React
router hook.  The file embeds the source shallowly:

* the browser world (URL fragment/query, history stack) is explicit state;
* `handleHashChange` (src/index.js lines 22-39) becomes a pure function
  from a `Location` to the router's `{context, state}`;
* `pushState` / `replaceState` (lines 47-67) become world transformers;
* the `Route` component (lines 94-128) becomes a step function from props
  to the React element it returns (or `none` for `null`), plus the list of
  `console.warn` messages it emits, and a fuel-based recursive renderer
  expands a whole element tree.

`URLSearchParams` and the percent-encoding primitives are browser builtins
(the spec treats them as external primitives with standard semantics);
they are modelled here at the ASCII level, which covers every input the
claims exercise.
-/

namespace SimpleRouter

/-- Hexadecimal digit value, `none` when the character is not a hex digit.
Models the digit handling inside the browser's percent-decoding. -/
def hexVal (c : Char) : Option Nat :=
  if '0' ≤ c ∧ c ≤ '9' then some (c.toNat - '0'.toNat)
  else if 'a' ≤ c ∧ c ≤ 'f' then some (c.toNat - 'a'.toNat + 10)
  else if 'A' ≤ c ∧ c ≤ 'F' then some (c.toNat - 'A'.toNat + 10)
  else none

/-- Model of the browser's `application/x-www-form-urlencoded` decoding
(as performed by `URLSearchParams`): `+` becomes a space, `%hh` becomes
the character with code `hh`, an ill-formed `%` is kept literally. -/
def formDecodeChars : List Char → List Char
  | [] => []
  | '+' :: rest => ' ' :: formDecodeChars rest
  | '%' :: a :: b :: rest =>
      match hexVal a, hexVal b with
      | some ha, some hb => Char.ofNat (16 * ha + hb) :: formDecodeChars rest
      | _, _ => '%' :: formDecodeChars (a :: b :: rest)
  | c :: rest => c :: formDecodeChars rest

/-- String-level form decoding. -/
def formDecode (s : String) : String :=
  String.mk (formDecodeChars s.data)

/-- Is the character kept verbatim by `application/x-www-form-urlencoded`
encoding? (alphanumerics and `*-._`). -/
def formSafe (c : Char) : Bool :=
  ('0' ≤ c ∧ c ≤ '9') ∨ ('a' ≤ c ∧ c ≤ 'z') ∨ ('A' ≤ c ∧ c ≤ 'Z') ∨
    c = '*' ∨ c = '-' ∨ c = '.' ∨ c = '_'

/-- Upper-case hex digit for a value below 16. -/
def hexDigit (n : Nat) : Char :=
  if n < 10 then Char.ofNat ('0'.toNat + n) else Char.ofNat ('A'.toNat + n - 10)

/-- Model of the browser's form encoding of one character (ASCII level):
space becomes `+`, safe characters stay, the rest become `%hh`. -/
def formEncodeChar (c : Char) : List Char :=
  if c = ' ' then ['+']
  else if formSafe c then [c]
  else ['%', hexDigit (c.toNat / 16 % 16), hexDigit (c.toNat % 16)]

/-- String-level form encoding. -/
def formEncode (s : String) : String :=
  String.mk (s.data.flatMap formEncodeChar)

/-- Splitting a character list on a separator character, the way the
JavaScript `String.prototype.split` behaves on a one-character separator:
the empty input gives one empty token, a separator at either end gives an
empty token there. -/
def jsSplitAux (sep : Char) : List Char → List Char → List (List Char)
  | [], acc => [acc.reverse]
  | c :: cs, acc =>
      if c = sep then acc.reverse :: jsSplitAux sep cs []
      else jsSplitAux sep cs (c :: acc)

/-- Model of JavaScript `s.split(sep)` for a one-character separator. -/
def jsSplit (s : String) (sep : Char) : List String :=
  (jsSplitAux sep s.data []).map String.mk

/-- Model of JavaScript `s.substring(1)` (empty when `s` is empty). -/
def substring1 (s : String) : String :=
  String.mk (s.data.drop 1)

/-- Model of parsing one `key=value` token of a query string the way
`URLSearchParams` does: the key is everything before the first `=`, the
value everything after it (an absent `=` gives an empty value); both are
form-decoded. -/
def parsePair (tok : String) : String × String :=
  let k := tok.data.takeWhile (fun c => c ≠ '=')
  let rest := tok.data.dropWhile (fun c => c ≠ '=')
  (String.mk (formDecodeChars k), String.mk (formDecodeChars (rest.drop 1)))

/-- Model of `new URLSearchParams(q).entries()`: split on `&`, drop empty
tokens, parse each `key=value` pair in order (duplicates kept). -/
def urlSearchParamsEntries (q : String) : List (String × String) :=
  ((jsSplit q '&').filter (fun t => t ≠ "")).map parsePair

/-- JavaScript object property write `m[k] = v` on a string-keyed object
represented as an insertion-ordered association list: an existing key is
updated in place, a new key is appended.  Also models the object spread
update `{...prev, [k]: v}` used by `setState`. -/
def objSet (m : List (String × String)) (k v : String) : List (String × String) :=
  if m.any (fun p => p.1 = k) then
    m.map (fun p => if p.1 = k then (k, v) else p)
  else
    m ++ [(k, v)]

/-- JavaScript object property read `m[k]`. -/
def objGet (m : List (String × String)) (k : String) : Option String :=
  (m.find? (fun p => p.1 = k)).map (fun p => p.2)

/-- The `window.location` parts the source reads: `hash` is the fragment
with its leading `#` (empty string when absent), `search` is the query
string with its leading `?` (empty string when absent). -/
structure Location where
  hash : String
  search : String
  deriving DecidableEq, Repr

/-- The router state owned by the hook: `context` is the list of route
segments, `state` the query-parameter object (src/index.js lines 16-17). -/
structure RouterState where
  context : List String
  state : List (String × String)
  deriving DecidableEq, Repr

/-- Embedding of `handleHashChange` (src/index.js lines 22-39): split the
fragment after `#` on `/` and keep the truthy (non-empty) segments; if the
query string after `?` is non-empty, fold the `URLSearchParams` entries
into a fresh object, else use the empty object. -/
def handleHashChange (loc : Location) : RouterState :=
  let routeSegments := (jsSplit (substring1 loc.hash) '/').filter (fun t => t ≠ "")
  let queryString := substring1 loc.search
  let newState :=
    if queryString ≠ "" then
      (urlSearchParamsEntries queryString).foldl (fun m p => objSet m p.1 p.2) []
    else []
  { context := routeSegments, state := newState }

/-- Model of `URLSearchParams.set(k, v)` on the entry list: the first
entry with key `k` gets value `v` and every later entry with key `k` is
removed; when `k` is absent the pair is appended. -/
def searchParamsSetEntries : List (String × String) → String → String → List (String × String)
  | [], k, v => [(k, v)]
  | (k', v') :: t, k, v =>
      if k' = k then (k, v) :: t.filter (fun p => p.1 ≠ k)
      else (k', v') :: searchParamsSetEntries t k v

/-- Joining serialized query pairs with `&`. -/
def joinAmp : List String → String
  | [] => ""
  | [s] => s
  | s :: t => s ++ "&" ++ joinAmp t

/-- Model of `url.searchParams.set(k, v)` followed by URL serialization,
acting on the raw `search` component (src/index.js lines 48-49, 62-63). -/
def searchParamsSet (search k v : String) : String :=
  let entries := urlSearchParamsEntries (substring1 search)
  let entries' := searchParamsSetEntries entries k v
  "?" ++ joinAmp (entries'.map (fun p => formEncode p.1 ++ "=" ++ formEncode p.2))

/-- A React element tree as the `Route` component manipulates it: plain
host elements, text, fragments (`<>...</>`), and `Route` elements carrying
the props destructured at src/index.js line 94 (`none` models an absent
prop / JS `undefined`). -/
inductive Node where
  | text (s : String) : Node
  | elem (tag : String) (children : List Node) : Node
  | fragment (children : List Node) : Node
  | route (depth : Option Nat) (path : Option String) (element : Option Node)
      (children : Option (List Node)) : Node

/-- Is this element a `Route` element?  Models the
`React.isValidElement(child) && child.type === Route` test
(src/index.js line 108). -/
def isRoute : Node → Bool
  | Node.route _ _ _ _ => true
  | _ => false

/-- Embedding of `injectDepth` (src/index.js lines 107-112): a `Route`
child is cloned with `depth = depth + 1`; any other child is returned
unchanged. -/
def injectDepth (depth : Nat) : Node → Node
  | Node.route _ p e c => Node.route (some (depth + 1)) p e c
  | n => n

/-- Model of `React.cloneElement(element, {}, children)` (src/index.js
line 120): the element with its children replaced. -/
def cloneWithChildren : Node → List Node → Node
  | Node.text s, _ => Node.text s
  | Node.elem t _, cs => Node.elem t cs
  | Node.fragment _, cs => Node.fragment cs
  | Node.route d p e _, cs => Node.route d p e (some cs)

/-- The warning `Route` logs when the `path` prop is missing
(src/index.js line 97). -/
def routeWarning : String := "Route component requires a path prop"

/-- Embedding of the `Route` component body (src/index.js lines 94-128)
as one evaluation step: from the current segment list and the props to
the React node `Route` returns (`none` for `null`) paired with the
`console.warn` messages it logs.  A missing `depth` prop defaults to `0`;
the `!path` truthiness test fails for both an absent and an empty-string
path; `context[depth]` on an out-of-range index is JS `undefined`, which
is `!==` any string path, hence the `Option`-valued segment lookup.
The matched branch (src/index.js lines 106-127) is split out as
`routeMatchRender`: inject `depth + 1` into the `Route` children, then
compose element and children exactly as the source's render logic does. -/
def routeMatchRender (d : Nat) (element : Option Node)
    (children : Option (List Node)) : Option Node :=
  let children' := children.map (fun cs => cs.map (injectDepth d))
  match element, children' with
  | some e, some cs => some (cloneWithChildren e cs)
  | some e, none => some e
  | none, some cs => some (Node.fragment cs)
  | none, none => none

/-- The `Route` component's guard structure (src/index.js lines 94-104):
missing or empty `path` warns and returns `null`; a segment mismatch at
the node's depth returns `null`; otherwise the matched branch renders. -/
def Route (ctx : List String) (depth : Option Nat) (path : Option String)
    (element : Option Node) (children : Option (List Node)) :
    Option Node × List String :=
  let d := depth.getD 0
  match path with
  | none => (none, [routeWarning])
  | some p =>
    if p = "" then (none, [routeWarning])
    else if ctx[d]? ≠ some p then (none, [])
    else (routeMatchRender d element children, [])

/-- The rendered output tree: host elements and text, with every `Route`
and fragment expanded away. -/
inductive Rendered where
  | text (s : String) : Rendered
  | elem (tag : String) (children : List Rendered) : Rendered

mutual

/-- Fuel-based recursive renderer: expands a node the way React renders
the tree returned by `Route`, flattening fragments and collecting
warnings.  `none` only on fuel exhaustion. -/
def renderNode : Nat → List String → Node → Option (List Rendered × List String)
  | 0, _, _ => none
  | _ + 1, _, Node.text s => some ([Rendered.text s], [])
  | fuel + 1, ctx, Node.elem t cs =>
      (renderList fuel ctx cs).map (fun r => ([Rendered.elem t r.1], r.2))
  | fuel + 1, ctx, Node.fragment cs => renderList fuel ctx cs
  | fuel + 1, ctx, Node.route d p e c =>
      match Route ctx d p e c with
      | (none, w) => some ([], w)
      | (some n, w) => (renderNode fuel ctx n).map (fun r => (r.1, w ++ r.2))

/-- Renders a child list in order, concatenating outputs and warnings. -/
def renderList : Nat → List String → List Node → Option (List Rendered × List String)
  | 0, _, _ => none
  | _ + 1, _, [] => some ([], [])
  | fuel + 1, ctx, n :: t => do
      let r ← renderNode fuel ctx n
      let rs ← renderList fuel ctx t
      some (r.1 ++ rs.1, r.2 ++ rs.2)

end

/-- The browser pieces the hook interacts with: the current location and
the stack of earlier history entries (most recent first). -/
structure Browser where
  loc : Location
  back : List Location
  deriving DecidableEq, Repr

/-- The whole observable state: browser plus the hook's router state. -/
structure World where
  browser : Browser
  router : RouterState
  deriving DecidableEq, Repr

/-- Embedding of `pushState` (src/index.js lines 47-53): build the
current URL with `key=value` set in its query string, commit it with
`window.history.pushState` (a new entry: the old location is pushed onto
the back stack, no navigation event fires), and merge `{[key]: value}`
into the in-memory state object. -/
def pushState (w : World) (key value : String) : World :=
  let url : Location :=
    { w.browser.loc with search := searchParamsSet w.browser.loc.search key value }
  { browser := { loc := url, back := w.browser.loc :: w.browser.back },
    router := { w.router with state := objSet w.router.state key value } }

/-- Embedding of `replaceState` (src/index.js lines 61-67): same URL
update and in-memory merge as `pushState`, but the current history entry
is replaced in place, so the back stack is untouched. -/
def replaceState (w : World) (key value : String) : World :=
  let url : Location :=
    { w.browser.loc with search := searchParamsSet w.browser.loc.search key value }
  { browser := { loc := url, back := w.browser.back },
    router := { w.router with state := objSet w.router.state key value } }

/-- Browser back navigation: pop the most recent back entry into the
current location (a no-op when the stack is empty) and fire `popstate`,
whose registered listener is `handleHashChange`
(src/index.js line 76). -/
def browserBack (w : World) : World :=
  match w.browser.back with
  | [] => w
  | p :: rest => { browser := { loc := p, back := rest }, router := handleHashChange p }

/-- A concrete world used to instantiate the general theorems: the page
sits at `#/users/42?tab=profile` with one earlier history entry, and the
hook state is the recomputation from that location (as after mount). -/
def sampleWorld : World :=
  { browser := { loc := { hash := "#/users/42", search := "?tab=profile" },
                 back := [{ hash := "#/home", search := "" }] },
    router := handleHashChange { hash := "#/users/42", search := "?tab=profile" } }

/-! ## Helper lemmas about the JS object operations -/

/-- A property write makes the written key readable with the written
value. -/
theorem objGet_objSet_self (m : List (String × String)) (k v : String) :
    objGet (objSet m k v) k = some v := by
  unfold objSet objGet
  by_cases h : m.any (fun p => p.1 = k)
  · rw [if_pos h]
    induction m with
    | nil => simp at h
    | cons p t ih =>
      by_cases hp : p.1 = k
      · simp [hp]
      · simp only [List.any_cons, decide_eq_true_eq, Bool.or_eq_true] at h
        rcases h with h | h
        · exact absurd h hp
        · simpa [hp] using ih (by simpa using h)
  · rw [if_neg h]
    induction m with
    | nil => simp
    | cons p t ih =>
      simp only [List.any_cons, decide_eq_true_eq, Bool.or_eq_true, not_or] at h
      simpa [h.1] using ih (by simp [h.2])

/-- Updating the entries whose key is `k` does not disturb a lookup for a
different key. -/
theorem find?_map_update (t : List (String × String)) (k v k' : String)
    (hk : k' ≠ k) :
    (t.map (fun p => if p.1 = k then (k, v) else p)).find?
        (fun p => p.1 = k') =
      t.find? (fun p => p.1 = k') := by
  induction t with
  | nil => rfl
  | cons p t ih =>
    simp only [List.map_cons]
    by_cases hp : p.1 = k
    · rw [if_pos hp]
      rw [List.find?_cons_of_neg _ (by simp [Ne.symm hk]),
        List.find?_cons_of_neg _ (by simp [hp, Ne.symm hk])]
      exact ih
    · rw [if_neg hp]
      by_cases hp' : p.1 = k'
      · rw [List.find?_cons_of_pos _ (by simp [hp']),
          List.find?_cons_of_pos _ (by simp [hp'])]
      · rw [List.find?_cons_of_neg _ (by simp [hp']),
          List.find?_cons_of_neg _ (by simp [hp'])]
        exact ih

/-- A property write leaves every other key's value unchanged. -/
theorem objGet_objSet_other (m : List (String × String)) (k v k' : String)
    (hk : k' ≠ k) : objGet (objSet m k v) k' = objGet m k' := by
  unfold objSet objGet
  by_cases h : m.any (fun p => p.1 = k)
  · rw [if_pos h, find?_map_update m k v k' hk]
  · rw [if_neg h]
    rw [List.find?_append]
    by_cases hf : m.find? (fun p => p.1 = k') = none
    · simp [hf, Ne.symm hk, hk]
    · rcases Option.ne_none_iff_exists'.mp hf with ⟨p, hp⟩
      simp [hp]

/-- A property write preserves uniqueness of keys. -/
theorem keys_nodup_objSet (m : List (String × String)) (k v : String)
    (h : (m.map Prod.fst).Nodup) : ((objSet m k v).map Prod.fst).Nodup := by
  unfold objSet
  by_cases hm : m.any (fun p => p.1 = k)
  · rw [if_pos hm]
    have : (m.map (fun p => if p.1 = k then (k, v) else p)).map Prod.fst =
        m.map Prod.fst := by
      rw [List.map_map]
      apply List.map_congr_left
      intro p _
      by_cases hp : p.1 = k
      · simp [hp]
      · simp [hp]
    rw [this]
    exact h
  · rw [if_neg hm]
    rw [List.map_append]
    simp only [List.any_eq_true, decide_eq_true_eq, not_exists, not_and] at hm
    refine List.Nodup.append h (by simp) ?_
    intro a ha hb
    simp only [List.map_cons, List.map_nil, List.mem_singleton] at hb
    rcases List.mem_map.mp ha with ⟨p, hp, rfl⟩
    exact hm p hp (hb ▸ rfl)

/-- Folding a pair list into an object with `objSet` gives, for each key,
the value of the key's last occurrence (the reverse-order first find),
falling back to the initial object. -/
theorem objGet_foldl_objSet (es : List (String × String))
    (m0 : List (String × String)) (k : String) :
    objGet (es.foldl (fun m p => objSet m p.1 p.2) m0) k =
      (es.reverse.find? (fun p => p.1 = k)).elim (objGet m0 k)
        (fun p => some p.2) := by
  induction es generalizing m0 with
  | nil => simp
  | cons e t ih =>
    simp only [List.foldl_cons, List.reverse_cons, List.find?_append]
    rw [ih]
    cases hf : t.reverse.find? (fun p => p.1 = k) with
    | some p => simp
    | none =>
      simp only [Option.none_or]
      by_cases he : e.1 = k
      · rw [List.find?_cons_of_pos _ (by simp [he])]
        subst he
        simp [objGet_objSet_self]
      · rw [List.find?_cons_of_neg _ (by simp [he])]
        simp [objGet_objSet_other m0 e.1 e.2 k (fun hh => he hh.symm)]

/-- Folding a pair list into an object with `objSet` preserves key
uniqueness. -/
theorem keys_nodup_foldl_objSet (es : List (String × String)) :
    ∀ m0 : List (String × String), (m0.map Prod.fst).Nodup →
      ((es.foldl (fun m p => objSet m p.1 p.2) m0).map Prod.fst).Nodup := by
  induction es with
  | nil => exact fun m0 h => h
  | cons e t ih =>
    intro m0 h
    exact ih (objSet m0 e.1 e.2) (keys_nodup_objSet m0 e.1 e.2 h)

/-- The recomputed segment list never contains the empty string: the
source filters the split with the truthiness test. -/
theorem context_all_nonempty (loc : Location) :
    "" ∉ (handleHashChange loc).context := by
  intro h
  simp [handleHashChange, List.mem_filter] at h

/-- Unfolding equation for the segment component of `handleHashChange`. -/
theorem handleHashChange_context_eq (loc : Location) :
    (handleHashChange loc).context =
      (jsSplit (substring1 loc.hash) '/').filter (fun t => t ≠ "") := rfl

/-- Unfolding equation for the parameter component of
`handleHashChange`. -/
theorem handleHashChange_state_eq (loc : Location) :
    (handleHashChange loc).state =
      if substring1 loc.search ≠ "" then
        (urlSearchParamsEntries (substring1 loc.search)).foldl
          (fun m p => objSet m p.1 p.2) []
      else [] := rfl

/-! ## The claims -/

/-- Claim C1: for the URL `.../page#/users/42?tab=profile`, after
recompute the segment sequence is `["users", "42"]` and the parameter map
is `{tab: "profile"}`; a matcher with `path="users"` at depth 0 matches
(its children receiving depth 1), its nested matcher with `path="42"` at
depth 1 matches and renders the innermost content, and the sibling nested
matcher with `path="99"` at depth 1 renders nothing — the fully rendered
tree is exactly the innermost content. -/
theorem C1_nested_scenario :
    (handleHashChange ⟨"#/users/42", "?tab=profile"⟩).context = ["users", "42"] ∧
    (handleHashChange ⟨"#/users/42", "?tab=profile"⟩).state = [("tab", "profile")] ∧
    Route ["users", "42"] none (some "users") none
        (some [Node.route none (some "42") none (some [Node.text "inner"]),
               Node.route none (some "99") none (some [Node.text "sibling"])]) =
      (some (Node.fragment
        [Node.route (some 1) (some "42") none (some [Node.text "inner"]),
         Node.route (some 1) (some "99") none (some [Node.text "sibling"])]), []) ∧
    Route ["users", "42"] (some 1) (some "42") none (some [Node.text "inner"]) =
      (some (Node.fragment [Node.text "inner"]), []) ∧
    Route ["users", "42"] (some 1) (some "99") none (some [Node.text "sibling"]) =
      (none, []) ∧
    renderNode 10 ["users", "42"]
      (Node.route none (some "users") none
        (some [Node.route none (some "42") none (some [Node.text "inner"]),
               Node.route none (some "99") none (some [Node.text "sibling"])])) =
      some ([Rendered.text "inner"], []) :=
  ⟨rfl, rfl, rfl, rfl, rfl, rfl⟩

/-- Claim C2: a URL with fragment `#/a/b/c` recomputes to the segment
sequence `["a", "b", "c"]` whatever the query string; fragment `#`,
the empty fragment, and an absent fragment all recompute to the empty
sequence; and no recomputed segment sequence ever contains the empty
string (empty split tokens are discarded). -/
theorem C2_segment_parsing :
    (∀ search, (handleHashChange ⟨"#/a/b/c", search⟩).context = ["a", "b", "c"]) ∧
    (∀ search, (handleHashChange ⟨"#", search⟩).context = []) ∧
    (∀ search, (handleHashChange ⟨"", search⟩).context = []) ∧
    (∀ loc, "" ∉ (handleHashChange loc).context) :=
  ⟨fun _ => rfl, fun _ => rfl, fun _ => rfl, context_all_nonempty⟩

/-- Witness for C2 at concrete locations. -/
theorem C2_segment_parsing_witness :
    (handleHashChange ⟨"#/a/b/c", "?z=9"⟩).context = ["a", "b", "c"] ∧
    "" ∉ (handleHashChange ⟨"#/a//b", ""⟩).context :=
  ⟨C2_segment_parsing.1 "?z=9", C2_segment_parsing.2.2.2 ⟨"#/a//b", ""⟩⟩

/-- Claim C3: a URL with query string `?x=1&y=2` recomputes to the
parameter map `{x: "1", y: "2"}` whatever the fragment; an absent or
empty query string yields the empty map; a duplicated key keeps the later
occurrence's value (concretely for `?x=1&x=2`, and in general every
lookup in the recomputed map returns the value of the key's last
occurrence among the parsed entries); and the keys of the recomputed map
are always unique. -/
theorem C3_parameter_parsing :
    (∀ hash, (handleHashChange ⟨hash, "?x=1&y=2"⟩).state = [("x", "1"), ("y", "2")]) ∧
    (∀ hash, (handleHashChange ⟨hash, ""⟩).state = []) ∧
    (∀ hash, (handleHashChange ⟨hash, "?"⟩).state = []) ∧
    (handleHashChange ⟨"", "?x=1&x=2"⟩).state = [("x", "2")] ∧
    (∀ loc k, objGet (handleHashChange loc).state k =
      ((urlSearchParamsEntries (substring1 loc.search)).reverse.find?
          (fun p => p.1 = k)).map (fun p => p.2)) ∧
    (∀ loc, ((handleHashChange loc).state.map Prod.fst).Nodup) := by
  refine ⟨fun _ => rfl, fun _ => rfl, fun _ => rfl, rfl, ?_, ?_⟩
  · intro loc k
    rw [handleHashChange_state_eq]
    by_cases hq : substring1 loc.search = ""
    · rw [if_neg (by simpa using hq), hq]
      simp [objGet, urlSearchParamsEntries, jsSplit, jsSplitAux]
    · rw [if_pos hq]
      rw [objGet_foldl_objSet]
      cases (urlSearchParamsEntries (substring1 loc.search)).reverse.find?
          (fun p => p.1 = k) with
      | none => simp [objGet]
      | some p => simp
  · intro loc
    rw [handleHashChange_state_eq]
    by_cases hq : substring1 loc.search = ""
    · rw [if_neg (by simpa using hq)]
      simp
    · rw [if_pos hq]
      exact keys_nodup_foldl_objSet _ [] (by simp)

/-- Claim C4: for every segment sequence, depth and non-empty configured
path, the matcher renders the matched branch iff the segment at the
node's depth equals the path under exact string equality, and otherwise
returns `null` with no warning; in particular a depth at or beyond the
sequence length is an ordinary non-match (the out-of-range lookup is
`none`, never an error — the embedding is total). -/
theorem C4_match_rule (ctx : List String) (d : Nat) (p : String)
    (el : Option Node) (ch : Option (List Node)) (hp : p ≠ "") :
    (Route ctx (some d) (some p) el ch =
      if ctx[d]? = some p then (routeMatchRender d el ch, [])
      else (none, [])) ∧
    (ctx.length ≤ d → Route ctx (some d) (some p) el ch = (none, [])) := by
  have hbase : Route ctx (some d) (some p) el ch =
      if ctx[d]? = some p then (routeMatchRender d el ch, [])
      else (none, []) := by
    by_cases h : ctx[d]? = some p <;> simp [Route, hp, h]
  refine ⟨hbase, fun hlen => ?_⟩
  have hnone : ctx[d]? = none := List.getElem?_eq_none hlen
  rw [hbase, if_neg (by simp [hnone])]

/-- Witness for C4: a depth-0 match and an out-of-range depth on a
concrete sequence. -/
theorem C4_match_rule_witness :
    Route ["a"] (some 0) (some "a") none none = (routeMatchRender 0 none none, []) ∧
    Route ["a"] (some 5) (some "a") none none = (none, []) := by
  refine ⟨?_, (C4_match_rule ["a"] 5 "a" none none (by decide)).2 (by decide)⟩
  have h := (C4_match_rule ["a"] 0 "a" none none (by decide)).1
  simpa using h

/-- Claim C5: after `pushState k v` or `replaceState k v`, an immediate
read of the in-memory parameter map at `k` yields `v` — the mutators
merge synchronously, with no navigation event needed. -/
theorem C5_immediate_read (w : World) (k v : String) :
    objGet (pushState w k v).router.state k = some v ∧
    objGet (replaceState w k v).router.state k = some v := by
  constructor
  · show objGet (objSet w.router.state k v) k = some v
    exact objGet_objSet_self _ _ _
  · show objGet (objSet w.router.state k v) k = some v
    exact objGet_objSet_self _ _ _

/-- Claim C6: `pushState` commits the updated URL as a new history entry
(the prior location is pushed onto the back stack), so a subsequent back
navigation restores the prior location and recomputes the router state
from it — restoring the whole world when the router was in sync with the
URL; `replaceState` commits the updated URL without creating an entry
(the back stack is untouched), so back navigation skips over it, landing
exactly where back navigation from the original world would. -/
theorem C6_history_semantics (w : World) (k v : String) :
    (pushState w k v).browser.back = w.browser.loc :: w.browser.back ∧
    (pushState w k v).browser.loc.search =
      searchParamsSet w.browser.loc.search k v ∧
    (browserBack (pushState w k v)).browser.loc = w.browser.loc ∧
    (browserBack (pushState w k v)).router = handleHashChange w.browser.loc ∧
    (w.router = handleHashChange w.browser.loc →
      browserBack (pushState w k v) = w) ∧
    (replaceState w k v).browser.back = w.browser.back ∧
    (replaceState w k v).browser.loc.search =
      searchParamsSet w.browser.loc.search k v ∧
    (w.browser.back ≠ [] →
      browserBack (replaceState w k v) = browserBack w) := by
  refine ⟨rfl, rfl, rfl, rfl, fun hsync => ?_, rfl, rfl, fun hb => ?_⟩
  · show World.mk (Browser.mk w.browser.loc w.browser.back)
      (handleHashChange w.browser.loc) = w
    rw [← hsync]
  · cases hback : w.browser.back with
    | nil => exact absurd hback hb
    | cons p rest =>
      show browserBack (World.mk (Browser.mk _ w.browser.back) _) = _
      unfold browserBack
      simp [hback]

/-- Witness for C6 on the sample world: back after push restores it, and
back after replace equals plain back. -/
theorem C6_history_semantics_witness :
    browserBack (pushState sampleWorld "tab" "settings") = sampleWorld ∧
    browserBack (replaceState sampleWorld "tab" "settings") =
      browserBack sampleWorld :=
  ⟨(C6_history_semantics sampleWorld "tab" "settings").2.2.2.2.1 rfl,
   (C6_history_semantics sampleWorld "tab" "settings").2.2.2.2.2.2.2 (by decide)⟩

/-- Claim C7: a matcher invoked with no `path` value logs the warning and
renders nothing — both as the immediate return of the component and under
the recursive renderer — and, the embedding being total, no exception is
raised. -/
theorem C7_missing_path (ctx : List String) (depth : Option Nat)
    (el : Option Node) (ch : Option (List Node)) (fuel : Nat) :
    Route ctx depth none el ch = (none, [routeWarning]) ∧
    renderNode (fuel + 1) ctx (Node.route depth none el ch) =
      some ([], [routeWarning]) :=
  ⟨rfl, rfl⟩

/-- Claim C8: `injectDepth` rewrites a `Route` child's depth to
`parentDepth + 1` and leaves every non-`Route` child unchanged; and when
a matcher at depth `d` matches, its rendered output composes exactly the
`injectDepth d`-mapped children (wrapped in the element when present,
as a fragment otherwise). -/
theorem C8_depth_propagation :
    (∀ d dp p e c, injectDepth d (Node.route dp p e c) =
      Node.route (some (d + 1)) p e c) ∧
    (∀ d n, isRoute n = false → injectDepth d n = n) ∧
    (∀ ctx d p el ch, ctx[d]? = some p → p ≠ "" →
      Route ctx (some d) (some p) el (some ch) =
        (routeMatchRender d el (some ch), []) ∧
      routeMatchRender d el (some ch) =
        (match el with
         | some e => some (cloneWithChildren e (ch.map (injectDepth d)))
         | none => some (Node.fragment (ch.map (injectDepth d))))) := by
  refine ⟨fun _ _ _ _ _ => rfl, ?_, ?_⟩
  · intro d n hn
    cases n with
    | route dp p e c => simp [isRoute] at hn
    | _ => rfl
  · intro ctx d p el ch hm hp
    constructor
    · simp [Route, hp, hm]
    · cases el <;> rfl

/-- Witness for C8: a non-matcher child passes through, and a matched
matcher renders its matcher child with depth 1. -/
theorem C8_depth_propagation_witness :
    injectDepth 0 (Node.text "t") = Node.text "t" ∧
    Route ["a"] (some 0) (some "a") none
        (some [Node.route none (some "b") none none]) =
      (some (Node.fragment [Node.route (some 1) (some "b") none none]), []) := by
  refine ⟨C8_depth_propagation.2.1 0 (Node.text "t") rfl, ?_⟩
  rw [(C8_depth_propagation.2.2 ["a"] 0 "a" none
    [Node.route none (some "b") none none] rfl (by decide)).1]
  rfl

/-- Claim C9: `pushState` and `replaceState` leave the segment sequence
unchanged (both the in-memory `context` and the URL fragment) and leave
every parameter entry with a key different from the written one
unchanged; only the written key's entry is set or overwritten. -/
theorem C9_mutator_frame (w : World) (k v k' : String) :
    (pushState w k v).router.context = w.router.context ∧
    (replaceState w k v).router.context = w.router.context ∧
    (pushState w k v).browser.loc.hash = w.browser.loc.hash ∧
    (replaceState w k v).browser.loc.hash = w.browser.loc.hash ∧
    (k' ≠ k →
      objGet (pushState w k v).router.state k' = objGet w.router.state k' ∧
      objGet (replaceState w k v).router.state k' = objGet w.router.state k') ∧
    objGet (pushState w k v).router.state k = some v ∧
    objGet (replaceState w k v).router.state k = some v := by
  refine ⟨rfl, rfl, rfl, rfl, fun hk => ⟨?_, ?_⟩, ?_, ?_⟩
  · exact objGet_objSet_other _ _ _ _ hk
  · exact objGet_objSet_other _ _ _ _ hk
  · exact objGet_objSet_self _ _ _
  · exact objGet_objSet_self _ _ _

/-- Witness for C9 on the sample world: writing `page` does not disturb
`tab`, and the context is untouched. -/
theorem C9_mutator_frame_witness :
    objGet (pushState sampleWorld "page" "2").router.state "tab" =
      objGet sampleWorld.router.state "tab" ∧
    (pushState sampleWorld "page" "2").router.context =
      sampleWorld.router.context :=
  ⟨((C9_mutator_frame sampleWorld "page" "2" "tab").2.2.2.2.1 (by decide)).1,
   (C9_mutator_frame sampleWorld "page" "2" "tab").1⟩

/-- Claim C10: a matcher whose `path` is the empty string takes the
missing-path branch — the truthiness test treats `""` like an absent
path, so it warns and renders nothing for every segment sequence and
depth, hence never matches any segment; and indeed the recomputed segment
sequence never contains the empty string either. -/
theorem C10_empty_path (ctx : List String) (depth : Option Nat)
    (el : Option Node) (ch : Option (List Node)) :
    Route ctx depth (some "") el ch = (none, [routeWarning]) ∧
    ∀ loc, "" ∉ (handleHashChange loc).context :=
  ⟨rfl, context_all_nonempty⟩

/-- Witness for C10: the empty path warns even when the sequence holds an
empty segment, and a concrete recompute holds no empty segment. -/
theorem C10_empty_path_witness :
    Route [""] (some 0) (some "") none none = (none, [routeWarning]) ∧
    "" ∉ (handleHashChange ⟨"#//x", "?a=1"⟩).context :=
  ⟨(C10_empty_path [""] (some 0) none none).1,
   (C10_empty_path [] none none none).2 ⟨"#//x", "?a=1"⟩⟩

end SimpleRouter
